import Mathlib

/-!
Verification of the rlox bytecode compiler / virtual machine
(`src/chunk.rs`, `src/compiler.rs`, `src/main.rs`) against its
natural-language specification.

The Rust code is shallowly embedded: `f64` is kept abstract as a type `F`
together with a record `FOps` of its operations (IEEE-754 equality is a
`Bool`-valued relation, not propositional equality), machine integers are
`Nat`, `Vec` is `List`, and fallible operations (`unwrap`, out-of-bounds
indexing, explicit panic calls) return `Except String` or `Option`, the
error carrying the panic message.  Values pushed onto a `Vec` appear at the
end of the `List`, so index arithmetic matches the Rust source verbatim.
-/

namespace RLox

/-! ## Data model (src/chunk.rs)

`Value`, `Object`, `Closure`, `Function`, `Chunk` are mutually recursive
because a chunk's constant pool holds values.  Field order follows the
Rust declarations; constructor names are the Rust variant names in lower
case. -/

mutual

/-- `enum Value { Nil, Bool(bool), Number(f64), Obj(Box<Object>) }`. -/
inductive Value (F : Type) where
  | nil : Value F
  | bool : Bool → Value F
  | number : F → Value F
  | obj : Object F → Value F

/-- `enum Object { Str(String), Closure(Closure) }`. -/
inductive Object (F : Type) where
  | str : String → Object F
  | closure : Closure F → Object F

/-- `struct Closure { function: Rc<Function> }`. -/
inductive Closure (F : Type) where
  | mk : Function F → Closure F

/-- `struct Function { arity: u32, chunk: Chunk, name: String }`. -/
inductive Function (F : Type) where
  | mk : Nat → Chunk F → String → Function F

/-- `struct Chunk { code: Vec<u8>, lines: Vec<usize>, constants: Vec<Value> }`. -/
inductive Chunk (F : Type) where
  | mk : List Nat → List Nat → List (Value F) → Chunk F

end

variable {F : Type}

/-- Field accessor: `Closure.function`. -/
def Closure.function : Closure F → Function F
  | .mk f => f

/-- Field accessor: `Function.arity`. -/
def Function.arity : Function F → Nat
  | .mk a _ _ => a

/-- Field accessor: `Function.chunk`. -/
def Function.chunk : Function F → Chunk F
  | .mk _ c _ => c

/-- Field accessor: `Function.name`. -/
def Function.name : Function F → String
  | .mk _ _ n => n

/-- Field accessor: `Chunk.code`. -/
def Chunk.code : Chunk F → List Nat
  | .mk c _ _ => c

/-- Field accessor: `Chunk.lines`. -/
def Chunk.lines : Chunk F → List Nat
  | .mk _ l _ => l

/-- Field accessor: `Chunk.constants`. -/
def Chunk.constants : Chunk F → List (Value F)
  | .mk _ _ k => k

/-- The operations the Rust code uses on `f64`, kept abstract.  `feq` is
IEEE-754 equality (a boolean relation, not assumed reflexive), `ffromStr`
is `f64::from_str`. -/
structure FOps (F : Type) where
  feq : F → F → Bool
  fadd : F → F → F
  fsub : F → F → F
  fmul : F → F → F
  fdiv : F → F → F
  flt : F → F → Bool
  fgt : F → F → Bool
  fneg : F → F
  ffromStr : String → Option F

/-- Decimal digits to a number (used only by the concrete witness
instantiation of `ffromStr`). -/
def digitsToNat : List Char → Nat → Option Nat
  | [], acc => some acc
  | c :: cs, acc =>
    if c.isDigit then digitsToNat cs (acc * 10 + (c.toNat - 48)) else none

/-- A concrete instantiation of the abstract `f64` operations used by
closed witnesses (the theorems themselves are generic in `F`). -/
def intOps : FOps Int where
  feq := fun a b => a == b
  fadd := fun a b => a + b
  fsub := fun a b => a - b
  fmul := fun a b => a * b
  fdiv := fun a b => a / b
  flt := fun a b => a < b
  fgt := fun a b => b < a
  fneg := fun a => -a
  ffromStr := fun s =>
    match s.toList with
    | [] => none
    | l => (digitsToNat l 0).map Int.ofNat

section Eq

variable (ops : FOps F)

mutual

/-- The `#[derive(PartialEq)]` equality of `Value`: same variant and equal
payloads; numbers are compared with `feq` (IEEE equality), objects
structurally (`Box`/`Rc` compare their contents). -/
def valueEq : Value F → Value F → Bool
  | .nil, .nil => true
  | .bool a, .bool b => a == b
  | .number a, .number b => ops.feq a b
  | .obj a, .obj b => objectEq a b
  | _, _ => false

/-- Derived equality of `Object`. -/
def objectEq : Object F → Object F → Bool
  | .str a, .str b => a == b
  | .closure a, .closure b => closureEq a b
  | _, _ => false

/-- Derived equality of `Closure`: `Rc<Function>` compares the pointed-to
functions (`impl PartialEq for Rc<T>` forwards to `T`). -/
def closureEq : Closure F → Closure F → Bool
  | .mk f, .mk g => functionEq f g

/-- Derived equality of `Function`: field-wise. -/
def functionEq : Function F → Function F → Bool
  | .mk a c n, .mk a' c' n' => a == a' && chunkEq c c' && n == n'

/-- Derived equality of `Chunk`: field-wise, constants element-wise. -/
def chunkEq : Chunk F → Chunk F → Bool
  | .mk co li ks, .mk co' li' ks' => co == co' && li == li' && valuesEq ks ks'

/-- Element-wise equality of constant pools (`Vec<Value>` equality). -/
def valuesEq : List (Value F) → List (Value F) → Bool
  | [], [] => true
  | a :: as', b :: bs' => valueEq a b && valuesEq as' bs'
  | _, _ => false

end

end Eq

/-- Variant discriminant of a `Value`, distinguishing the two object
kinds as well: used to state that values of different variants never
compare equal. -/
def Value.tag : Value F → Nat
  | .nil => 0
  | .bool _ => 1
  | .number _ => 2
  | .obj (.str _) => 3
  | .obj (.closure _) => 4

/-- `Value::is_string`. -/
def Value.is_string : Value F → Bool
  | .obj (.str _) => true
  | _ => false

/-- `Value::is_closure`. -/
def Value.is_closure : Value F → Bool
  | .obj (.closure _) => true
  | _ => false

/-- `Value::is_bool`. -/
def Value.is_bool : Value F → Bool
  | .bool _ => true
  | _ => false

/-- `Value::is_number`. -/
def Value.is_number : Value F → Bool
  | .number _ => true
  | _ => false

/-- `Value::as_number`; panics with "not a number" on any other variant. -/
def Value.as_number : Value F → Except String F
  | .number n => .ok n
  | _ => .error "not a number"

/-- `Value::as_bool`; panics with "not a bool" on any other variant (note:
this is a strict cast, not a falsiness test). -/
def Value.as_bool : Value F → Except String Bool
  | .bool b => .ok b
  | _ => .error "not a bool"

/-- `Value::as_str`. -/
def Value.as_str : Value F → Except String String
  | .obj (.str s) => .ok s
  | .obj _ => .error "not a string"
  | _ => .error "not an object"

/-- `Value::as_function` (panic messages as in the source). -/
def Value.as_function : Value F → Except String (Function F)
  | .obj (.closure c) => .ok c.function
  | .obj _ => .error "not a string"
  | _ => .error "not an object"

/-- `Value::as_closure`. -/
def Value.as_closure : Value F → Except String (Closure F)
  | .obj (.closure c) => .ok c
  | .obj _ => .error "not a string"
  | _ => .error "not an object"

/-! ## Opcodes and their byte encoding (src/chunk.rs) -/

/-- `enum OpCode` of src/chunk.rs. -/
inductive OpCode where
  | Return | Constant | Divide | Add | Negate | Multiply | Substract
  | Not | Equal | Greater | Less | Print | Nil | Pop
  | GetLocal | SetLocal | JumpIfFalse | Jump | Loop | Call | Closure | Debug
deriving DecidableEq

/-- `impl From<OpCode> for u8`. -/
def OpCode.toByte : OpCode → Nat
  | .Return => 0
  | .Constant => 1
  | .Divide => 2
  | .Add => 3
  | .Negate => 4
  | .Multiply => 5
  | .Substract => 6
  | .Not => 7
  | .Equal => 8
  | .Greater => 9
  | .Less => 10
  | .Print => 11
  | .Nil => 12
  | .Pop => 13
  | .JumpIfFalse => 14
  | .GetLocal => 15
  | .SetLocal => 16
  | .Jump => 17
  | .Loop => 18
  | .Call => 19
  | .Closure => 20
  | .Debug => 255

/-- `u32::MAX` (also `u32::MAX as usize` on a 64-bit target). -/
def u32Max : Nat := 4294967295

/-- `u32::to_be_bytes`: the four big-endian bytes of a `u32`. -/
def u32ToBeBytes (n : Nat) : List Nat :=
  [n / 2 ^ 24 % 256, n / 2 ^ 16 % 256, n / 2 ^ 8 % 256, n % 256]

/-- `u32::from_be_bytes` on four bytes. -/
def u32FromBeBytes (a b c d : Nat) : Nat :=
  ((a * 256 + b) * 256 + c) * 256 + d

/-- Reading a big-endian `u32` operand at position `ip` of a code vector:
the semantics of `&code[ip..ip+4]` + `from_be_bytes` (`none` exactly when
the slice would be out of bounds and the Rust code would panic). -/
def chunkReadU32 (code : List Nat) (ip : Nat) : Option Nat :=
  match code.get? ip, code.get? (ip + 1), code.get? (ip + 2), code.get? (ip + 3) with
  | some a, some b, some c, some d => some (u32FromBeBytes a b c d)
  | _, _, _, _ => none

/-! ## Chunk write API (src/chunk.rs) -/

/-- `Chunk::new()`. -/
def Chunk.new : Chunk F := .mk [] [] []

/-- `Chunk::size()` (`code.len() as u32`; the cast is lossless because the
write API refuses to grow `code` past `u32::MAX`). -/
def Chunk.size (c : Chunk F) : Nat := c.code.length

/-- `Chunk::write_chunk`: panics with "Source code too long!" when
`code.len() >= u32::MAX as usize`, otherwise appends the opcode byte and
its source line. -/
def Chunk.write_chunk (c : Chunk F) (code : OpCode) (line : Nat) : Option (Chunk F) :=
  if u32Max ≤ c.code.length then none
  else some (.mk (c.code ++ [code.toByte]) (c.lines ++ [line]) c.constants)

/-- One iteration of the loop in `Chunk::write_u32`: guard, then push one
byte and one line entry. -/
def Chunk.pushByte (c : Chunk F) (b : Nat) (line : Nat) : Option (Chunk F) :=
  if u32Max ≤ c.code.length then none
  else some (.mk (c.code ++ [b]) (c.lines ++ [line]) c.constants)

/-- `Chunk::write_u32`: the `for b in index.to_be_bytes()` loop unrolled —
pushes the four big-endian bytes of `index`, each with the same line
entry, re-checking the length guard before each byte. -/
def Chunk.write_u32 (c : Chunk F) (index : Nat) (line : Nat) : Option (Chunk F) := do
  let c1 ← c.pushByte (index / 2 ^ 24 % 256) line
  let c2 ← c1.pushByte (index / 2 ^ 16 % 256) line
  let c3 ← c2.pushByte (index / 2 ^ 8 % 256) line
  c3.pushByte (index % 256) line

/-- `Chunk::add_constant`: panics when the pool is full, otherwise appends
and returns the new constant's index. -/
def Chunk.add_constant (c : Chunk F) (constant : Value F) : Option (Chunk F × Nat) :=
  if u32Max ≤ c.constants.length then none
  else some (.mk c.code c.lines (c.constants ++ [constant]), c.constants.length)

/-! ## Virtual machine state (src/main.rs) -/

/-- `struct CallStack { closure, ip, offset }`. -/
structure CallStack (F : Type) where
  closure : Closure F
  ip : Nat
  offset : Nat

/-- `struct VM { frames: Vec<CallStack>, stack: Vec<Value> }`.  The end of
each list is the top of the corresponding `Vec`. -/
structure VM (F : Type) where
  frames : List (CallStack F)
  stack : List (Value F)

/-- `VM::pop`: `self.stack.pop().unwrap()`. -/
def VM.pop (vm : VM F) : Except String (Value F × VM F) :=
  match vm.stack.getLast? with
  | some v => .ok (v, { vm with stack := vm.stack.dropLast })
  | none => .error "called Option unwrap on a None value"

/-- `VM::push`. -/
def VM.push (vm : VM F) (v : Value F) : VM F :=
  { vm with stack := vm.stack ++ [v] }

/-- `VM::peek`: `&self.stack[self.stack.len() - 1 - depth]`; panics (index
out of bounds, after the `usize` underflow) when `depth >= len`. -/
def VM.peek (vm : VM F) (depth : Nat) : Except String (Value F) :=
  if depth < vm.stack.length then
    match vm.stack.get? (vm.stack.length - 1 - depth) with
    | some v => .ok v
    | none => .error "index out of bounds"
  else .error "index out of bounds"

/-- `VM::frame`: `self.frames.last().unwrap()`. -/
def VM.frame (vm : VM F) : Except String (CallStack F) :=
  match vm.frames.getLast? with
  | some f => .ok f
  | none => .error "called Option unwrap on a None value"

/-- `self.frame_mut().ip += d`. -/
def VM.bumpIp (vm : VM F) (d : Nat) : VM F :=
  match vm.frames.getLast? with
  | some fr => { vm with frames := vm.frames.dropLast ++ [{ fr with ip := fr.ip + d }] }
  | none => vm

/-- `VM::read_u32`: reads `code[ip..ip+4]` of the current frame's chunk as
a big-endian `u32` and advances `ip` by 4. -/
def VM.read_u32 (vm : VM F) : Except String (Nat × VM F) :=
  match vm.frame with
  | .error m => .error m
  | .ok fr =>
    match chunkReadU32 fr.closure.function.chunk.code fr.ip with
    | some n => .ok (n, vm.bumpIp 4)
    | none => .error "slice index out of range"

/-- Result of executing one instruction arm of `VM::run`: continue with a
new state, return `InterpretResult::RuntimeError` (after
`runtime_error(msg)` printed `msg` and the frame trace), or hit a Rust
panic. -/
inductive Step (F : Type) where
  | ok : VM F → Step F
  | runtimeError : String → Step F
  | crash : String → Step F

/-- The `OpCode::Substract` arm of `VM::run`.  The type guard tests
`peek(0)` twice (exactly as the source does), so the value below the top
is never checked. -/
def execSubstract (ops : FOps F) (vm : VM F) : Step F :=
  match vm.peek 0, vm.peek 0 with
  | .error m, _ => .crash m
  | _, .error m => .crash m
  | .ok p0, .ok p0' =>
    if !p0.is_number || !p0'.is_number then .runtimeError "Operands must be numbers."
    else
      match vm.pop with
      | .error m => .crash m
      | .ok (b, vm1) =>
        match vm1.pop with
        | .error m => .crash m
        | .ok (a, vm2) =>
          match a.as_number with
          | .error m => .crash m
          | .ok x =>
            match b.as_number with
            | .error m => .crash m
            | .ok y => .ok (vm2.push (.number (ops.fsub x y)))

/-- The `OpCode::Multiply` arm of `VM::run` (same double-`peek(0)` guard
as the source). -/
def execMultiply (ops : FOps F) (vm : VM F) : Step F :=
  match vm.peek 0, vm.peek 0 with
  | .error m, _ => .crash m
  | _, .error m => .crash m
  | .ok p0, .ok p0' =>
    if !p0.is_number || !p0'.is_number then .runtimeError "Operands must be numbers."
    else
      match vm.pop with
      | .error m => .crash m
      | .ok (b, vm1) =>
        match vm1.pop with
        | .error m => .crash m
        | .ok (a, vm2) =>
          match a.as_number with
          | .error m => .crash m
          | .ok x =>
            match b.as_number with
            | .error m => .crash m
            | .ok y => .ok (vm2.push (.number (ops.fmul x y)))

/-- The `OpCode::Divide` arm of `VM::run` (same double-`peek(0)` guard as
the source). -/
def execDivide (ops : FOps F) (vm : VM F) : Step F :=
  match vm.peek 0, vm.peek 0 with
  | .error m, _ => .crash m
  | _, .error m => .crash m
  | .ok p0, .ok p0' =>
    if !p0.is_number || !p0'.is_number then .runtimeError "Operands must be numbers."
    else
      match vm.pop with
      | .error m => .crash m
      | .ok (b, vm1) =>
        match vm1.pop with
        | .error m => .crash m
        | .ok (a, vm2) =>
          match a.as_number with
          | .error m => .crash m
          | .ok x =>
            match b.as_number with
            | .error m => .crash m
            | .ok y => .ok (vm2.push (.number (ops.fdiv x y)))

/-- The `OpCode::Equal` arm of `VM::run`: pop `b`, pop `a`, push
`Bool(a == b)`. -/
def execEqual (ops : FOps F) (vm : VM F) : Step F :=
  match vm.pop with
  | .error m => .crash m
  | .ok (b, vm1) =>
    match vm1.pop with
    | .error m => .crash m
    | .ok (a, vm2) => .ok (vm2.push (.bool (valueEq ops a b)))

/-- The `OpCode::JumpIfFalse` arm of `VM::run`: read the operand, then
`if !self.peek(0).as_bool() { ip += jump }` — the top is not popped, and
`as_bool` is the strict cast that panics on non-`Bool` values. -/
def execJumpIfFalse (vm : VM F) : Step F :=
  match vm.read_u32 with
  | .error m => .crash m
  | .ok (jump, vm1) =>
    match vm1.peek 0 with
    | .error m => .crash m
    | .ok top =>
      match top.as_bool with
      | .error m => .crash m
      | .ok b => if !b then .ok (vm1.bumpIp jump) else .ok vm1

/-- Result of `VM::call` as seen from the `OpCode::Call` arm: push a frame
and continue, or return `false` (which makes `run` return
`InterpretResult::RuntimeError`); `halt (some msg)` is the arity mismatch
(which also prints via `runtime_error`), `halt none` the non-closure
callee (no message is printed). -/
inductive CallRes (F : Type) where
  | proceed : VM F → CallRes F
  | halt : Option String → CallRes F
  | crash : String → CallRes F

/-- `VM::call` (src/main.rs lines 248-270): the callee is `peek(argc)`;
on success the pushed frame has `ip = 0` and
`offset = self.stack.len() - argc`. -/
def VM.call (vm : VM F) (argc : Nat) : CallRes F :=
  match vm.peek argc with
  | .error m => .crash m
  | .ok f =>
    if f.is_closure then
      match f.as_function with
      | .error m => .crash m
      | .ok func =>
        if func.arity ≠ argc then
          .halt (some ("Expected " ++ toString func.arity ++ " arguments but got "
            ++ toString argc ++ "."))
        else
          match f.as_closure with
          | .error m => .crash m
          | .ok clos =>
            .proceed { vm with
              frames := vm.frames ++ [⟨clos, 0, vm.stack.length - argc⟩] }
    else .halt none

/-! ## Process entry point (src/main.rs `main` / `run_file`) -/

/-- `enum InterpretResult { Ok, RuntimeError }`. -/
inductive InterpretResult where
  | ok | runtimeError
deriving DecidableEq

/-- The exit behaviour of `run_file`: whether compilation succeeded (the
`Some(script)` branch) or failed (the empty `else` branch), `run_file`
just returns — `vm.run()`'s result is discarded and `process::exit` is
never called, so the process later exits normally with status 0. -/
def run_file_exit (script : Option (Chunk F)) (run_result : InterpretResult) : Nat :=
  match script, run_result with
  | some _, _ => 0
  | none, _ => 0

/-- The exit status of `main`: with exactly 2 `args` it calls `run_file`;
with any other count it prints "Usage: rlox [script]" and calls
`std::process::exit(64)`.  The returned pair is (message printed by `main`
itself, process exit status). -/
def main_exit (argc : Nat) (script : Option (Chunk F)) (run_result : InterpretResult) :
    Option String × Nat :=
  match argc with
  | 2 => (none, run_file_exit script run_result)
  | _ => (some "Usage: rlox [script]", 64)

/-! ## Sequences of chunk-write calls (for the line-table invariant) -/

/-- One call of the `Chunk` write API. -/
inductive ChunkOp (F : Type) where
  | wchunk : OpCode → Nat → ChunkOp F
  | wu32 : Nat → Nat → ChunkOp F
  | addconst : Value F → ChunkOp F

/-- Apply one write-API call (`none` models the length-guard panics). -/
def ChunkOp.apply (c : Chunk F) : ChunkOp F → Option (Chunk F)
  | .wchunk op line => c.write_chunk op line
  | .wu32 v line => c.write_u32 v line
  | .addconst v => (c.add_constant v).map Prod.fst

/-- Apply a sequence of write-API calls in order. -/
def applyOps (c : Chunk F) : List (ChunkOp F) → Option (Chunk F)
  | [] => some c
  | o :: os =>
    match o.apply c with
    | some c' => applyOps c' os
    | none => none

/-- `Chunk::pushByte` preserves `code.len() == lines.len()`. -/
theorem pushByte_wellLined {c : Chunk F} {b line : Nat} {c' : Chunk F}
    (h : c.pushByte b line = some c') (hc : c.code.length = c.lines.length) :
    c'.code.length = c'.lines.length := by
  unfold Chunk.pushByte at h
  split at h
  · simp at h
  · cases h
    show (c.code ++ [b]).length = (c.lines ++ [line]).length
    simp [hc]

/-- `Chunk::write_chunk` preserves `code.len() == lines.len()`. -/
theorem write_chunk_wellLined {c : Chunk F} {op : OpCode} {line : Nat} {c' : Chunk F}
    (h : c.write_chunk op line = some c') (hc : c.code.length = c.lines.length) :
    c'.code.length = c'.lines.length := by
  unfold Chunk.write_chunk at h
  split at h
  · simp at h
  · cases h
    show (c.code ++ [op.toByte]).length = (c.lines ++ [line]).length
    simp [hc]

/-- `Chunk::write_u32` preserves `code.len() == lines.len()`. -/
theorem write_u32_wellLined {c : Chunk F} {v line : Nat} {c' : Chunk F}
    (h : c.write_u32 v line = some c') (hc : c.code.length = c.lines.length) :
    c'.code.length = c'.lines.length := by
  unfold Chunk.write_u32 at h
  simp only [Option.bind_eq_bind, Option.bind_eq_some] at h
  obtain ⟨c1, h1, c2, h2, c3, h3, h4⟩ := h
  exact pushByte_wellLined h4
    (pushByte_wellLined h3 (pushByte_wellLined h2 (pushByte_wellLined h1 hc)))

/-- `Chunk::add_constant` leaves `code` and `lines` unchanged. -/
theorem add_constant_wellLined {c : Chunk F} {v : Value F} {c' : Chunk F}
    (h : (c.add_constant v).map Prod.fst = some c')
    (hc : c.code.length = c.lines.length) :
    c'.code.length = c'.lines.length := by
  unfold Chunk.add_constant at h
  split at h
  · simp at h
  · injection h with h'
    subst h'
    exact hc

/-- Each single write-API call preserves `code.len() == lines.len()`. -/
theorem apply_wellLined {c : Chunk F} {o : ChunkOp F} {c' : Chunk F}
    (h : o.apply c = some c') (hc : c.code.length = c.lines.length) :
    c'.code.length = c'.lines.length := by
  cases o with
  | wchunk op line => exact write_chunk_wellLined (by simpa [ChunkOp.apply] using h) hc
  | wu32 v line => exact write_u32_wellLined (by simpa [ChunkOp.apply] using h) hc
  | addconst v => exact add_constant_wellLined (by simpa [ChunkOp.apply] using h) hc

/-- The invariant propagates along any sequence of write-API calls. -/
theorem applyOps_wellLined :
    ∀ (l : List (ChunkOp F)) (c0 c : Chunk F),
      c0.code.length = c0.lines.length → applyOps c0 l = some c →
      c.code.length = c.lines.length := by
  intro l
  induction l with
  | nil => intro c0 c h0 h; cases h; exact h0
  | cons o os ih =>
    intro c0 c h0 h
    unfold applyOps at h
    cases ha : o.apply c0 with
    | none => rw [ha] at h; exact absurd h (by simp)
    | some c1 => rw [ha] at h; exact ih c1 c (apply_wellLined ha h0) h

/-- Claim C8: starting from `Chunk::new()`, after any sequence of
`write_chunk`, `write_u32` and `add_constant` calls that completes
(no length-guard panic), `code.len() == lines.len()` holds — every
appended code byte records exactly one source-line entry.  Since every
prefix of such a sequence is such a sequence, the invariant holds after
each call. -/
theorem chunk_code_lines_invariant {F : Type} (l : List (ChunkOp F)) (c : Chunk F)
    (h : applyOps Chunk.new l = some c) : c.code.length = c.lines.length :=
  applyOps_wellLined l Chunk.new c rfl h

/-- A concrete write-call sequence for the invariant witness. -/
def chunkOpsEx : List (ChunkOp Int) :=
  [.wchunk .Constant 1, .wu32 0 1, .addconst (.number 7), .wchunk .Return 2]

/-- The chunk produced by `chunkOpsEx`. -/
def chunkEx : Chunk Int :=
  Chunk.mk [1, 0, 0, 0, 0, 0] [1, 1, 1, 1, 1, 2] [.number 7]

/-- Witness for `chunk_code_lines_invariant` at a concrete call sequence. -/
theorem chunk_code_lines_invariant_witness :
    applyOps Chunk.new chunkOpsEx = some chunkEx ∧
      chunkEx.code.length = chunkEx.lines.length :=
  ⟨rfl, chunk_code_lines_invariant chunkOpsEx chunkEx rfl⟩

/-! ## Stack helper lemmas (the end of the list is the top of the `Vec`) -/

/-- Popping a stack whose last element is `v` yields `v` and drops it. -/
theorem pop_concat (fr : List (CallStack F)) (s : List (Value F)) (v : Value F) :
    VM.pop ⟨fr, s ++ [v]⟩ = .ok (v, ⟨fr, s⟩) := by
  simp [VM.pop]

/-- `peek(0)` on a non-empty stack is its last element. -/
theorem peek0_concat (fr : List (CallStack F)) (s : List (Value F)) (v : Value F) :
    VM.peek ⟨fr, s ++ [v]⟩ 0 = .ok v := by
  unfold VM.peek
  have h1 : (s ++ [v]).length - 1 - 0 = s.length := by simp
  rw [h1, List.get?_concat_length]
  simp

/-- The current frame of a non-empty frame stack is its last entry. -/
theorem frame_concat (fs : List (CallStack F)) (fr : CallStack F) (s : List (Value F)) :
    VM.frame ⟨fs ++ [fr], s⟩ = .ok fr := by
  simp [VM.frame]

/-- `frame_mut().ip += d` bumps only the last frame's `ip`. -/
theorem bumpIp_concat (fs : List (CallStack F)) (fr : CallStack F) (s : List (Value F))
    (d : Nat) :
    VM.bumpIp ⟨fs ++ [fr], s⟩ d = ⟨fs ++ [{ fr with ip := fr.ip + d }], s⟩ := by
  simp [VM.bumpIp]

/-! ## Claim C10 — `Equal` is total and cross-variant comparisons are false -/

/-- Claim C10: executing `Equal` on any two popped values `a`, `b` never
raises a runtime error or panics: it pushes `Bool(a == b)` (the derived
structural equality), and whenever `a` and `b` are of different variants
the pushed result is `Bool(false)` rather than a type error. -/
theorem equal_never_errors {F : Type} (ops : FOps F) (fr : List (CallStack F))
    (s : List (Value F)) (a b : Value F) :
    execEqual ops ⟨fr, s ++ [a, b]⟩ = .ok ⟨fr, s ++ [.bool (valueEq ops a b)]⟩ ∧
      (a.tag ≠ b.tag → valueEq ops a b = false) := by
  constructor
  · have e1 : s ++ [a, b] = (s ++ [a]) ++ [b] := by simp
    simp only [execEqual, e1, pop_concat, VM.push]
  · intro hne
    cases a with
    | obj oa =>
      cases b with
      | obj ob => cases oa <;> cases ob <;> simp_all [valueEq, objectEq, Value.tag]
      | nil => simp [valueEq]
      | bool _ => simp [valueEq]
      | number _ => simp [valueEq]
    | nil => cases b <;> simp_all [valueEq, Value.tag]
    | bool _ => cases b <;> simp_all [valueEq, Value.tag]
    | number _ => cases b <;> simp_all [valueEq, Value.tag]

/-- Witness for `equal_never_errors`: comparing a number with a string
pushes `Bool(false)` and raises no error. -/
theorem equal_never_errors_witness :
    execEqual intOps ⟨[], [Value.number 1, Value.obj (Object.str "x")]⟩
        = .ok ⟨[], [Value.bool false]⟩ ∧
      valueEq intOps (Value.number 1) (Value.obj (Object.str "x")) = false := by
  have h := equal_never_errors intOps [] [] (Value.number 1) (Value.obj (Object.str "x"))
  have h2 := h.2 (by decide)
  exact ⟨by simpa [h2] using h.1, h2⟩

/-! ## Claim C7 — closure equality is structural, not by identity -/

/-- A compiled function body; `exFun1` and `exFun2` stand for two
runtime function objects allocated separately (e.g. by two executions of
a `Closure` instruction) with identical content. -/
def exFun1 : Function Int := .mk 0 (.mk [12, 0] [1, 1] []) "f"

/-- A second, separately constructed function with the same arity, chunk
and name as `exFun1`. -/
def exFun2 : Function Int := .mk 0 (.mk [12, 0] [1, 1] []) "f"

/-- Claim C7 counterexample: `Equal` on two distinct closure objects built
from structurally identical functions (same name, arity and chunk) pushes
`Bool(true)` — the derived `PartialEq` compares contents, so closure
equality is not by object identity and the two closures do not compare
unequal. -/
theorem closure_identity_counterexample :
    execEqual intOps
        ⟨[], [Value.obj (.closure (.mk exFun1)), Value.obj (.closure (.mk exFun2))]⟩
      = .ok ⟨[], [Value.bool true]⟩ := by
  simp [execEqual, VM.pop, VM.push, exFun1, exFun2,
    valueEq, objectEq, closureEq, functionEq, chunkEq, valuesEq]

/-- Claim C7 (amended): equality of closure values under the `Equal`
instruction is structural — it is exactly the derived field-wise equality
of the underlying `Function`s (`Rc<Function>` forwards to `Function`), so
it depends only on content (arity, chunk, name), never on object
identity. -/
theorem closure_equality_structural {F : Type} (ops : FOps F) (f g : Function F) :
    valueEq ops (.obj (.closure (.mk f))) (.obj (.closure (.mk g))) = functionEq ops f g := by
  simp [valueEq, objectEq, closureEq]

/-! ## Claim C2 — the frame offset pushed by `VM::call` -/

/-- Claim C2 (amended): when `Call argc` invokes a closure of arity
`argc`, the pushed frame has `offset = stack.len() - argc` (not
`stack.len() - argc - 1`): slot 0 of the callee is the first argument,
and the callee value itself sits below the frame at `offset - 1`. -/
theorem call_frame_offset {F : Type} (vm : VM F) (argc : Nat) (clos : Closure F)
    (hpeek : vm.peek argc = .ok (.obj (.closure clos)))
    (harity : clos.function.arity = argc) :
    vm.call argc =
      .proceed { vm with frames := vm.frames ++ [⟨clos, 0, vm.stack.length - argc⟩] } := by
  unfold VM.call
  rw [hpeek]
  simp [Value.is_closure, Value.as_function, Value.as_closure, harity]

/-- The callee closure of the concrete `Call` counterexample (arity 1). -/
def exCallee : Closure Int := .mk (.mk 1 (.mk [] [] []) "g")

/-- A VM about to execute `Call 1`: stack holds the callee and one
argument. -/
def exCallVM : VM Int := ⟨[], [Value.obj (.closure exCallee), Value.number 5]⟩

/-- Claim C2 counterexample: with stack `[callee, arg]` and `argc = 1`,
the pushed frame's offset is `1 = stack.len() - argc`, whereas the claim
demands `stack.len() - argc - 1 = 0`; `stack[1]` is the argument, not the
callee. -/
theorem call_offset_counterexample :
    exCallVM.call 1 = .proceed ⟨[⟨exCallee, 0, 1⟩], exCallVM.stack⟩ ∧
      exCallVM.stack.length - 1 - 1 = 0 ∧
      exCallVM.stack.get? 1 = some (Value.number 5) ∧ (1 : Nat) ≠ 0 :=
  ⟨rfl, rfl, rfl, by decide⟩

/-- Witness for `call_frame_offset` at the concrete call. -/
theorem call_frame_offset_witness :
    exCallVM.call 1 =
      .proceed { exCallVM with
        frames := exCallVM.frames ++ [⟨exCallee, 0, exCallVM.stack.length - 1⟩] } :=
  call_frame_offset exCallVM 1 exCallee rfl rfl

/-! ## Claim C3 — the double `peek(0)` guard of the numeric binary ops -/

/-- Claim C3: with stack `[Bool(true), Number(1)]` (second-from-top not a
number, top a number), the `Substract`, `Multiply` and `Divide` arms all
pass their type guard — which tests `peek(0)` twice and never checks
`peek(1)` — and then panic in `Value::as_number` with "not a number"
instead of halting with the runtime error "Operands must be numbers.". -/
theorem binary_guard_misses_second_operand :
    execSubstract intOps ⟨[], [Value.bool true, Value.number 1]⟩ = .crash "not a number" ∧
      execMultiply intOps ⟨[], [Value.bool true, Value.number 1]⟩ = .crash "not a number" ∧
      execDivide intOps ⟨[], [Value.bool true, Value.number 1]⟩ = .crash "not a number" :=
  ⟨rfl, rfl, rfl⟩

/-! ## Claim C4 — `JumpIfFalse` and non-`Bool` conditions -/

/-- A frame whose chunk is `[JumpIfFalse, 0, 0, 0, 5]` with `ip` already
past the opcode byte. -/
def exJumpFrame : CallStack Int :=
  ⟨.mk (.mk 0 (.mk [14, 0, 0, 0, 5] [1, 1, 1, 1, 1] []) "s"), 1, 0⟩

/-- Claim C4 counterexample: executing `JumpIfFalse` with `Nil` on top of
the stack panics with "not a bool" (`Value::as_bool` is a strict cast),
instead of treating `Nil` as falsy and jumping. -/
theorem jump_if_false_nil_counterexample :
    execJumpIfFalse (⟨[exJumpFrame], [Value.nil]⟩ : VM Int) = .crash "not a bool" := rfl

/-- Claim C4 (amended): when the top of the stack is `Bool b`,
`JumpIfFalse off` advances `ip` past the operand and then by `off` exactly
when `b` is false; the top value is not popped and the stack is unchanged.
When the top is any non-`Bool` value (`Nil` included) the arm panics in
`as_bool` instead. -/
theorem jump_if_false_bool {F : Type} (fs : List (CallStack F)) (fr : CallStack F)
    (s : List (Value F)) (b : Bool) (j : Nat)
    (hread : chunkReadU32 fr.closure.function.chunk.code fr.ip = some j) :
    execJumpIfFalse ⟨fs ++ [fr], s ++ [.bool b]⟩ =
      .ok ⟨fs ++ [{ fr with ip := fr.ip + 4 + (if b then 0 else j) }], s ++ [.bool b]⟩ := by
  simp only [execJumpIfFalse, VM.read_u32, frame_concat, hread, bumpIp_concat,
    peek0_concat, Value.as_bool]
  cases b with
  | true => simp
  | false => simp

/-- Witness for `jump_if_false_bool`: a concrete `Bool(false)` condition
jumps by the operand 5 and leaves the stack alone. -/
theorem jump_if_false_bool_witness :
    execJumpIfFalse (⟨[exJumpFrame], [Value.bool false]⟩ : VM Int) =
      .ok ⟨[{ exJumpFrame with ip := exJumpFrame.ip + 4 + 5 }], [Value.bool false]⟩ := by
  have h := jump_if_false_bool [] exJumpFrame [] false 5 rfl
  simpa using h

/-! ## Claim C5 — process exit statuses -/

/-- Claim C5 counterexample: a failed compilation and a runtime error both
leave the process exiting with status 0 (`run_file` has an empty `else`
branch and discards `vm.run()`'s result), not 65 and 70. -/
theorem exit_code_counterexample :
    (main_exit 2 (none : Option (Chunk Int)) InterpretResult.ok).2 = 0 ∧
      (main_exit 2 (none : Option (Chunk Int)) InterpretResult.ok).2 ≠ 65 ∧
      (main_exit 2 (some (Chunk.new : Chunk Int)) InterpretResult.runtimeError).2 = 0 ∧
      (main_exit 2 (some (Chunk.new : Chunk Int)) InterpretResult.runtimeError).2 ≠ 70 :=
  ⟨rfl, by decide, rfl, by decide⟩

/-- Claim C5 (amended): the only non-zero exit status is the usage error —
with `argc ≠ 2` the process prints "Usage: rlox [script]" and exits 64;
with `argc = 2` it exits 0 whether compilation failed, execution hit a
runtime error, or everything succeeded. -/
theorem exit_code_map {F : Type} (argc : Nat) (script : Option (Chunk F))
    (rr : InterpretResult) :
    main_exit argc script rr =
      if argc = 2 then (none, 0) else (some "Usage: rlox [script]", 64) := by
  rcases argc with _ | _ | _ | n
  · rfl
  · rfl
  · cases script <;> rfl
  · rfl

/-! ## Claim C9 — jump emission and patching (src/compiler.rs) -/

/-- `Chunk::write_chunk` appends exactly the opcode byte and one line. -/
theorem write_chunk_spec {c : Chunk F} {op : OpCode} {line : Nat} {c' : Chunk F}
    (h : c.write_chunk op line = some c') :
    c' = .mk (c.code ++ [op.toByte]) (c.lines ++ [line]) c.constants := by
  unfold Chunk.write_chunk at h
  split at h
  · simp at h
  · exact (Option.some.inj h).symm

/-- `Chunk::pushByte` appends exactly one byte and one line. -/
theorem pushByte_spec {c : Chunk F} {b line : Nat} {c' : Chunk F}
    (h : c.pushByte b line = some c') :
    c' = .mk (c.code ++ [b]) (c.lines ++ [line]) c.constants := by
  unfold Chunk.pushByte at h
  split at h
  · simp at h
  · exact (Option.some.inj h).symm

/-- `Chunk::write_u32` appends exactly the four big-endian bytes and four
copies of the line. -/
theorem write_u32_spec {c : Chunk F} {v line : Nat} {c' : Chunk F}
    (h : c.write_u32 v line = some c') :
    c' = .mk (c.code ++ u32ToBeBytes v) (c.lines ++ [line, line, line, line]) c.constants := by
  unfold Chunk.write_u32 at h
  simp only [Option.bind_eq_bind, Option.bind_eq_some] at h
  obtain ⟨c1, h1, c2, h2, c3, h3, h4⟩ := h
  rw [pushByte_spec h4, pushByte_spec h3, pushByte_spec h2, pushByte_spec h1]
  simp [u32ToBeBytes, Chunk.code, Chunk.lines, Chunk.constants]

/-- The in-place byte-assignment loop of `Parser::patch_jump`
(`for (i, b) in jump.to_be_bytes() { code[offset + i] = b }`). -/
def setBytes : List Nat → Nat → List Nat → List Nat
  | l, _, [] => l
  | l, i, b :: bs => setBytes (l.set i b) (i + 1) bs

/-- The chunk effect of `Parser::emit_jump`: append the opcode byte (at
the previous token's line `l1`) and the `u32::MAX` placeholder operand
(at the current token's line `l2`); return the new chunk and
`chunk.size() - 4`, the operand's position. -/
def emitJump (c : Chunk F) (op : OpCode) (l1 l2 : Nat) : Option (Chunk F × Nat) := do
  let c1 ← c.write_chunk op l1
  let c2 ← c1.write_u32 u32Max l2
  some (c2, c2.size - 4)

/-- The chunk effect of `Parser::patch_jump`: overwrite the 4 operand
bytes at `offset` with the big-endian encoding of
`chunk.size() - offset - 4`. -/
def Chunk.patch_jump (c : Chunk F) (offset : Nat) : Chunk F :=
  .mk (setBytes c.code offset (u32ToBeBytes (c.size - offset - 4))) c.lines c.constants

/-- Reading back the four bytes written by the patch loop. -/
theorem setBytes4_read (l : List Nat) (p b0 b1 b2 b3 : Nat) (h : p + 4 ≤ l.length) :
    chunkReadU32 (setBytes l p [b0, b1, b2, b3]) p = some (u32FromBeBytes b0 b1 b2 b3) := by
  have e : setBytes l p [b0, b1, b2, b3]
      = (((l.set p b0).set (p + 1) b1).set (p + 2) b2).set (p + 3) b3 := rfl
  have g0 : (setBytes l p [b0, b1, b2, b3]).get? p = some b0 := by
    rw [e, List.get?_set_ne _ _ (by omega), List.get?_set_ne _ _ (by omega),
      List.get?_set_ne _ _ (by omega), List.get?_set_eq_of_lt _ (by omega)]
  have g1 : (setBytes l p [b0, b1, b2, b3]).get? (p + 1) = some b1 := by
    rw [e, List.get?_set_ne _ _ (by omega), List.get?_set_ne _ _ (by omega),
      List.get?_set_eq_of_lt _ (by rw [List.length_set]; omega)]
  have g2 : (setBytes l p [b0, b1, b2, b3]).get? (p + 2) = some b2 := by
    rw [e, List.get?_set_ne _ _ (by omega),
      List.get?_set_eq_of_lt _ (by rw [List.length_set, List.length_set]; omega)]
  have g3 : (setBytes l p [b0, b1, b2, b3]).get? (p + 3) = some b3 := by
    rw [e, List.get?_set_eq_of_lt _
      (by rw [List.length_set, List.length_set, List.length_set]; omega)]
  unfold chunkReadU32
  rw [g0, g1, g2, g3]

/-- Big-endian encode/decode round-trip for values below `2^32`. -/
theorem u32_roundtrip (n : Nat) (h : n < 2 ^ 32) :
    u32FromBeBytes (n / 2 ^ 24 % 256) (n / 2 ^ 16 % 256) (n / 2 ^ 8 % 256) (n % 256) = n := by
  unfold u32FromBeBytes
  omega

/-- What `emit_jump` appends: the opcode byte followed by the four
`255` placeholder bytes; the returned operand position is
`c.code.length + 1`. -/
theorem emitJump_spec {F : Type} {c : Chunk F} {op : OpCode} {l1 l2 : Nat}
    {c1 : Chunk F} {p : Nat} (h : emitJump c op l1 l2 = some (c1, p)) :
    c1 = .mk ((c.code ++ [op.toByte]) ++ [255, 255, 255, 255])
        ((c.lines ++ [l1]) ++ [l2, l2, l2, l2]) c.constants ∧
      p = c.code.length + 1 := by
  unfold emitJump at h
  simp only [Option.bind_eq_bind, Option.bind_eq_some] at h
  obtain ⟨ca, hw, cb, hu, hpair⟩ := h
  injection hpair with hp
  cases hp
  rw [write_chunk_spec hw] at hu
  have hcb := write_u32_spec hu
  have ebytes : u32ToBeBytes u32Max = [255, 255, 255, 255] := by decide
  simp only [Chunk.code, Chunk.lines, Chunk.constants, ebytes] at hcb
  subst hcb
  refine ⟨rfl, ?_⟩
  simp [Chunk.size, Chunk.code]

/-- Patching the operand at `p` with `size - p - 4` and reading it back:
the read yields `L - p - 4`, which brings the reader's `ip` (at `p + 4`
after the read) exactly to the patch-time end of code. -/
theorem patch_read {F : Type} (c2 : Chunk F) (p : Nat) (hlo : p + 4 ≤ c2.code.length)
    (hhi : c2.code.length < 2 ^ 32) :
    chunkReadU32 (c2.patch_jump p).code p = some (c2.code.length - p - 4) ∧
      p + 4 + (c2.code.length - p - 4) = c2.code.length := by
  constructor
  · have hs : c2.size = c2.code.length := rfl
    show chunkReadU32 (setBytes c2.code p (u32ToBeBytes (c2.size - p - 4))) p = _
    rw [hs, u32ToBeBytes]
    rw [setBytes4_read _ _ _ _ _ _ hlo]
    rw [u32_roundtrip _ (by omega)]
  · omega

/-- Claim C9: `emit_jump` appends the all-ones placeholder `u32::MAX` as a
4-byte big-endian operand and returns its position `p = size - 4`; a later
`patch_jump p` (at any code length `L` with `p + 4 ≤ L < 2^32`) overwrites
the operand with `L - p - 4`, so that reading the operand at `p` and
adding it to the instruction pointer after the read (`p + 4`) lands
exactly on the patch-time end of code `L`. -/
theorem emit_patch_jump {F : Type} (c : Chunk F) (op : OpCode) (l1 l2 : Nat)
    (c1 : Chunk F) (p : Nat) (h : emitJump c op l1 l2 = some (c1, p)) :
    (p + 4 = c1.code.length ∧ c1.code.drop p = [255, 255, 255, 255]) ∧
      ∀ c2 : Chunk F, p + 4 ≤ c2.code.length → c2.code.length < 2 ^ 32 →
        chunkReadU32 (c2.patch_jump p).code p = some (c2.code.length - p - 4) ∧
          p + 4 + (c2.code.length - p - 4) = c2.code.length := by
  obtain ⟨hc1, hp⟩ := emitJump_spec h
  subst hc1
  subst hp
  refine ⟨⟨?_, ?_⟩, ?_⟩
  · simp [Chunk.code]
  · have hlen : (c.code ++ [op.toByte]).length = c.code.length + 1 := by simp
    show ((c.code ++ [op.toByte]) ++ [255, 255, 255, 255]).drop (c.code.length + 1)
      = [255, 255, 255, 255]
    rw [← hlen, List.drop_left]
  · intro c2 hlo hhi
    exact patch_read c2 _ hlo hhi

/-- The chunk produced by the witness's `emit_jump`. -/
def emitChunkEx : Chunk Int := .mk [14, 255, 255, 255, 255] [1, 1, 1, 1, 1] []

/-- A later state of the same chunk (one `Pop` appended) at patch time. -/
def patchChunkEx : Chunk Int := .mk [14, 255, 255, 255, 255, 13] [1, 1, 1, 1, 1, 2] []

/-- Witness for `emit_patch_jump` at a concrete emit/patch pair. -/
theorem emit_patch_jump_witness :
    emitJump (Chunk.new : Chunk Int) .JumpIfFalse 1 1 = some (emitChunkEx, 1) ∧
      emitChunkEx.code.drop 1 = [255, 255, 255, 255] ∧
      chunkReadU32 (patchChunkEx.patch_jump 1).code 1 = some 1 ∧
      1 + 4 + 1 = patchChunkEx.code.length := by
  have h := emit_patch_jump (Chunk.new : Chunk Int) .JumpIfFalse 1 1 emitChunkEx 1 rfl
  have h2 := h.2 patchChunkEx (by decide) (by decide)
  exact ⟨rfl, h.1.2, by simpa [patchChunkEx] using h2.1, by simpa [patchChunkEx] using h2.2⟩

/-! ## Scanner (src/compiler.rs lines 643-926)

The Rust scanner indexes characters with `chars().nth(current)` but slices
lexemes by byte index; the embedding uses a `List Char` with one index
space, which coincides with the source for ASCII inputs (all inputs used
here are ASCII).  `Scanner::peek` unwraps the `Option` returned by `nth`,
so reading past the end of the source is a panic, modelled as
`Except.error`.  Loops take explicit fuel; the distinguished fuel-exhausted
error never arises in the concrete runs below. -/

/-- The `{` character (written by code point for clarity of the rules on
brace characters). -/
def lbraceChar : Char := Char.ofNat 123

/-- The `}` character. -/
def rbraceChar : Char := Char.ofNat 125

/-- `enum TokenType` of src/compiler.rs. -/
inductive TokenType where
  | LeftParen | RightParen | LeftBrace | RightBrace | Comma | Dot | Minus | Plus
  | Semicolon | Slash | Star | Bang | BangEqual | Equal | EqualEqual | Greater
  | GreaterEqual | Less | LessEqual | Identifier | String | Number | And | Class
  | Else | False | For | Fun | If | Nil | Or | Print | Return | Super | This
  | True | Var | While | Error | Eof
deriving DecidableEq

/-- `struct Token { kind, lexeme, line }`. -/
structure Token where
  kind : TokenType
  lexeme : String
  line : Nat
deriving DecidableEq

/-- `struct Scanner { source, start, current, line }`. -/
structure Scanner where
  source : List Char
  start : Nat
  current : Nat
  line : Nat

/-- `Scanner::init`. -/
def Scanner.init (source : String) : Scanner :=
  ⟨source.toList, 0, 0, 1⟩

/-- `Scanner::is_at_end`: `current == source.chars().count()`. -/
def Scanner.is_at_end (s : Scanner) : Bool :=
  s.current == s.source.length

/-- `Scanner::peek`: `self.source.chars().nth(self.current).unwrap()` —
panics at end of source. -/
def Scanner.peek (s : Scanner) : Except String Char :=
  match s.source.get? s.current with
  | some c => .ok c
  | none => .error "called Option unwrap on a None value"

/-- `Scanner::peek_next` (returns an `Option`; no unwrap). -/
def Scanner.peek_next (s : Scanner) : Option Char :=
  s.source.get? (s.current + 1)

/-- `Scanner::matches`: consume the next character when it equals `c`. -/
def Scanner.matches (s : Scanner) (c : Char) : Bool × Scanner :=
  if s.source.get? s.current == some c then (true, { s with current := s.current + 1 })
  else (false, s)

/-- `Scanner::advance`: `current += 1` then `nth(current - 1).unwrap()`. -/
def Scanner.advance (s : Scanner) : Except String (Char × Scanner) :=
  let s' : Scanner := { s with current := s.current + 1 }
  match s'.source.get? (s'.current - 1) with
  | some c => .ok (c, s')
  | none => .error "called Option unwrap on a None value"

/-- `Scanner::make_token`: the lexeme is `source[start..current]`. -/
def Scanner.make_token (s : Scanner) (kind : TokenType) : Token :=
  ⟨kind, String.mk ((s.source.drop s.start).take (s.current - s.start)), s.line⟩

/-- `Scanner::error_token`. -/
def Scanner.error_token (s : Scanner) (msg : String) : Token :=
  ⟨.Error, msg, s.line⟩

/-- `Scanner::check_keyword`: length test, then byte-wise comparison of
`source[start+start..start+start+length]` with `rest`. -/
def Scanner.check_keyword (s : Scanner) (start length : Nat) (rest : String)
    (kind : TokenType) : TokenType :=
  if s.current - s.start == start + length
      && String.mk ((s.source.drop (s.start + start)).take length) == rest
  then kind else .Identifier

/-- `Scanner::identifier_type`: the keyword trie (panicking `nth(..)`
unwraps modelled as errors; they are unreachable because an identifier
character was consumed). -/
def Scanner.identifier_type (s : Scanner) : Except String TokenType :=
  match s.source.get? s.start with
  | none => .error "called Option unwrap on a None value"
  | some c =>
    if c = 'a' then .ok (s.check_keyword 1 2 "nd" .And)
    else if c = 'c' then .ok (s.check_keyword 1 4 "lass" .Class)
    else if c = 'e' then .ok (s.check_keyword 1 3 "lse" .Else)
    else if c = 'f' then
      if s.current - s.start > 1 then
        match s.source.get? (s.start + 1) with
        | none => .error "called Option unwrap on a None value"
        | some c2 =>
          if c2 = 'a' then .ok (s.check_keyword 2 3 "lse" .False)
          else if c2 = 'o' then .ok (s.check_keyword 2 1 "r" .For)
          else if c2 = 'u' then .ok (s.check_keyword 2 1 "n" .Fun)
          else .ok .Identifier
      else .ok .Identifier
    else if c = 'i' then .ok (s.check_keyword 1 1 "f" .If)
    else if c = 'n' then .ok (s.check_keyword 1 2 "il" .Nil)
    else if c = 'o' then .ok (s.check_keyword 1 1 "r" .Or)
    else if c = 'p' then .ok (s.check_keyword 1 4 "rint" .Print)
    else if c = 'r' then .ok (s.check_keyword 1 5 "eturn" .Return)
    else if c = 's' then .ok (s.check_keyword 1 4 "uper" .Super)
    else if c = 't' then
      if s.current - s.start > 1 then
        match s.source.get? (s.start + 1) with
        | none => .error "called Option unwrap on a None value"
        | some c2 =>
          if c2 = 'h' then .ok (s.check_keyword 2 2 "is" .This)
          else if c2 = 'r' then .ok (s.check_keyword 2 2 "ue" .True)
          else .ok .Identifier
      else .ok .Identifier
    else if c = 'v' then .ok (s.check_keyword 1 2 "ar" .Var)
    else if c = 'w' then .ok (s.check_keyword 1 4 "hile" .While)
    else .ok .Identifier

/-- One iteration of the loop of `Scanner::identifier`: note that the
guard calls `peek()` first, so an identifier running to the end of the
source panics. -/
def Scanner.identifierLoopStep (ih : Scanner → Except String Scanner) (s : Scanner) :
    Except String Scanner :=
  match s.peek with
  | .error m => .error m
  | .ok c =>
    if c.isAlpha || c = '_' || c.isDigit then
      match s.advance with
      | .error m => .error m
      | .ok (_, s') => ih s'
    else .ok s

/-- The loop of `Scanner::identifier` (fuel-indexed). -/
def Scanner.identifierLoop (fuel : Nat) : Scanner → Except String Scanner :=
  @Nat.rec (fun _ => Scanner → Except String Scanner)
    (fun _ => .error "out of fuel")
    (fun _ ih => Scanner.identifierLoopStep ih)
    fuel

/-- Unfolding equation for `identifierLoop`. -/
theorem Scanner.identifierLoop_eq (fuel : Nat) :
    Scanner.identifierLoop fuel
      = if fuel = 0 then fun _ => .error "out of fuel"
        else Scanner.identifierLoopStep (Scanner.identifierLoop (fuel - 1)) := by
  cases fuel
  · rfl
  · rfl

/-- One iteration of the `while peek().is_numeric()` loop of
`Scanner::number`. -/
def Scanner.numberLoopStep (ih : Scanner → Except String Scanner) (s : Scanner) :
    Except String Scanner :=
  match s.peek with
  | .error m => .error m
  | .ok c =>
    if c.isDigit then
      match s.advance with
      | .error m => .error m
      | .ok (_, s') => ih s'
    else .ok s

/-- The digit loop of `Scanner::number` (fuel-indexed). -/
def Scanner.numberLoop (fuel : Nat) : Scanner → Except String Scanner :=
  @Nat.rec (fun _ => Scanner → Except String Scanner)
    (fun _ => .error "out of fuel")
    (fun _ ih => Scanner.numberLoopStep ih)
    fuel

/-- Unfolding equation for `numberLoop`. -/
theorem Scanner.numberLoop_eq (fuel : Nat) :
    Scanner.numberLoop fuel
      = if fuel = 0 then fun _ => .error "out of fuel"
        else Scanner.numberLoopStep (Scanner.numberLoop (fuel - 1)) := by
  cases fuel
  · rfl
  · rfl

/-- `Scanner::number` after the initial digit was consumed. -/
def Scanner.number (fuel : Nat) (s : Scanner) : Except String (Token × Scanner) := do
  let s1 ← Scanner.numberLoop fuel s
  match s1.peek with
  | .error m => .error m
  | .ok c =>
    if c = '.' && (s1.peek_next.map Char.isDigit).getD false then do
      let (_, s2) ← s1.advance
      let s3 ← Scanner.numberLoop fuel s2
      .ok (s3.make_token .Number, s3)
    else .ok (s1.make_token .Number, s1)

/-- The `while self.peek() != '"' && !self.is_at_end()` loop of
`Scanner::string`: `peek()` is evaluated before `is_at_end()`, so when the
string is still open at the end of the source the `unwrap` inside `peek`
panics. -/
def Scanner.stringLoopStep (ih : Scanner → Except String Scanner) (s : Scanner) :
    Except String Scanner :=
  match s.peek with
  | .error m => .error m
  | .ok c =>
    if c ≠ '"' && !s.is_at_end then
      let s' : Scanner := if c = '\n' then { s with line := s.line + 1 } else s
      match s'.advance with
      | .error m => .error m
      | .ok (_, s'') => ih s''
    else .ok s

/-- The string-body loop (fuel-indexed). -/
def Scanner.stringLoop (fuel : Nat) : Scanner → Except String Scanner :=
  @Nat.rec (fun _ => Scanner → Except String Scanner)
    (fun _ => .error "out of fuel")
    (fun _ ih => Scanner.stringLoopStep ih)
    fuel

/-- Unfolding equation for `stringLoop`. -/
theorem Scanner.stringLoop_eq (fuel : Nat) :
    Scanner.stringLoop fuel
      = if fuel = 0 then fun _ => .error "out of fuel"
        else Scanner.stringLoopStep (Scanner.stringLoop (fuel - 1)) := by
  cases fuel
  · rfl
  · rfl

/-- `Scanner::string` after the opening quote was consumed. -/
def Scanner.string (fuel : Nat) (s : Scanner) : Except String (Token × Scanner) := do
  let s1 ← Scanner.stringLoop fuel s
  if s1.is_at_end then .ok (s1.error_token "Unterminated string.", s1)
  else do
    let (_, s2) ← s1.advance
    .ok (s2.make_token .String, s2)

/-- The `while peek() != '\n' && !is_at_end()` loop skipping a `//`
comment (again `peek()` before `is_at_end()`). -/
def Scanner.commentLoopStep (ih : Scanner → Except String Scanner) (s : Scanner) :
    Except String Scanner :=
  match s.peek with
  | .error m => .error m
  | .ok c =>
    if c ≠ '\n' && !s.is_at_end then
      match s.advance with
      | .error m => .error m
      | .ok (_, s') => ih s'
    else .ok s

/-- The comment-skipping loop (fuel-indexed). -/
def Scanner.commentLoop (fuel : Nat) : Scanner → Except String Scanner :=
  @Nat.rec (fun _ => Scanner → Except String Scanner)
    (fun _ => .error "out of fuel")
    (fun _ ih => Scanner.commentLoopStep ih)
    fuel

/-- Unfolding equation for `commentLoop`. -/
theorem Scanner.commentLoop_eq (fuel : Nat) :
    Scanner.commentLoop fuel
      = if fuel = 0 then fun _ => .error "out of fuel"
        else Scanner.commentLoopStep (Scanner.commentLoop (fuel - 1)) := by
  cases fuel
  · rfl
  · rfl

/-- One iteration of `Scanner::skip_whitespace`; `fuel` is the
already-decremented fuel handed to the comment loop. -/
def Scanner.skip_whitespaceStep (ih : Scanner → Except String Scanner) (fuel : Nat)
    (s : Scanner) : Except String Scanner :=
  if s.is_at_end then .ok s
  else
    match s.peek with
    | .error m => .error m
    | .ok c =>
      if c.isWhitespace then
        let s' : Scanner := if c = '\n' then { s with line := s.line + 1 } else s
        match s'.advance with
        | .error m => .error m
        | .ok (_, s'') => ih s''
      else if c = '/' then
        if s.peek_next == some '/' then
          match Scanner.commentLoop fuel s with
          | .error m => .error m
          | .ok s' => ih s'
        else .ok s
      else .ok s

/-- `Scanner::skip_whitespace` (fuel-indexed). -/
def Scanner.skip_whitespace (fuel : Nat) : Scanner → Except String Scanner :=
  @Nat.rec (fun _ => Scanner → Except String Scanner)
    (fun _ => .error "out of fuel")
    (fun f ih => Scanner.skip_whitespaceStep ih f)
    fuel

/-- Unfolding equation for `skip_whitespace`. -/
theorem Scanner.skip_whitespace_eq (fuel : Nat) :
    Scanner.skip_whitespace fuel
      = if fuel = 0 then fun _ => .error "out of fuel"
        else Scanner.skip_whitespaceStep (Scanner.skip_whitespace (fuel - 1)) (fuel - 1) := by
  cases fuel
  · rfl
  · rfl

/-- `Scanner::scan_token`, returning the token together with the advanced
scanner. -/
def Scanner.scan_token (fuel : Nat) (s0 : Scanner) : Except String (Token × Scanner) := do
  let s1 ← Scanner.skip_whitespace fuel s0
  let s : Scanner := { s1 with start := s1.current }
  if s.is_at_end then .ok (s.make_token .Eof, s)
  else do
    let (c, s) ← s.advance
    if c.isAlpha || c = '_' then do
      let s' ← Scanner.identifierLoop fuel s
      let k ← s'.identifier_type
      .ok (s'.make_token k, s')
    else if c.isDigit then Scanner.number fuel s
    else if c = '(' then .ok (s.make_token .LeftParen, s)
    else if c = ')' then .ok (s.make_token .RightParen, s)
    else if c = lbraceChar then .ok (s.make_token .LeftBrace, s)
    else if c = rbraceChar then .ok (s.make_token .RightBrace, s)
    else if c = ';' then .ok (s.make_token .Semicolon, s)
    else if c = ',' then .ok (s.make_token .Comma, s)
    else if c = '.' then .ok (s.make_token .Dot, s)
    else if c = '-' then .ok (s.make_token .Minus, s)
    else if c = '+' then .ok (s.make_token .Plus, s)
    else if c = '/' then .ok (s.make_token .Slash, s)
    else if c = '*' then .ok (s.make_token .Star, s)
    else if c = '!' then
      let (m, s') := s.matches '='
      .ok (if m then s'.make_token .BangEqual else s'.make_token .Bang, s')
    else if c = '=' then
      let (m, s') := s.matches '='
      .ok (if m then s'.make_token .EqualEqual else s'.make_token .Equal, s')
    else if c = '<' then
      let (m, s') := s.matches '='
      .ok (if m then s'.make_token .LessEqual else s'.make_token .Less, s')
    else if c = '>' then
      let (m, s') := s.matches '='
      .ok (if m then s'.make_token .GreaterEqual else s'.make_token .Greater, s')
    else if c = '"' then Scanner.string fuel s
    else .ok (s.error_token "Unexpected character.", s)

/-! ## Claim C6 — `scan_token` is not total -/

/-- Claim C6: on the source `"abc` — a string literal still open at the
end of the source — `scan_token` does not return the `Error` token
"Unterminated string.": the string loop's guard evaluates `peek()` before
`is_at_end()`, and `peek`'s `unwrap` panics on `None` at the end of the
source (the unterminated-string branch is unreachable). -/
theorem scan_token_unterminated_string_panics :
    Scanner.scan_token 10 (Scanner.init "\"abc")
      = .error "called Option unwrap on a None value" := rfl

/-! ## Compiler state (src/compiler.rs lines 6-106) -/

/-- `struct Local { token, depth }` (`depth: Option<usize>`, `None` while
the initializer is being parsed). -/
structure Local where
  token : Token
  depth : Option Nat

/-- `struct Compiler { locals, scope_depth }`. -/
structure Compiler where
  locals : List Local
  scope_depth : Nat

/-- `Compiler::new`. -/
def Compiler.new : Compiler := ⟨[], 0⟩

/-- `Compiler::variable_already_declared`: some local with the same lexeme
was declared at exactly the current scope depth (the source iterates in
reverse and returns at the first hit; existence is order-independent). -/
def Compiler.variable_already_declared (c : Compiler) (t : Token) : Bool :=
  c.locals.any fun l => l.token.lexeme == t.lexeme && l.depth == some c.scope_depth

/-- `Compiler::add_local`: push a local with `depth: None`. -/
def Compiler.add_local (c : Compiler) (t : Token) : Compiler :=
  { c with locals := c.locals ++ [⟨t, none⟩] }

/-- `Compiler::locals_removed_from_stack`: drop the locals whose recorded
depth exceeds the (already decremented) scope depth, keeping the rest;
returns how many were dropped. -/
def Compiler.locals_removed_from_stack (c : Compiler) : Nat × Compiler :=
  let keep := c.locals.filter fun l =>
    match l.depth with
    | some d => decide (d ≤ c.scope_depth)
    | none => true
  (c.locals.length - keep.length, { c with locals := keep })

/-- `enum Precedence` (order is the precedence ladder). -/
inductive Precedence where
  | None | Assignment | Or | And | Equality | Comparison | Term | Factor
  | Unary | Call | Primary
deriving DecidableEq

/-- Numeric rank of a precedence (the derived `PartialOrd` order). -/
def Precedence.toNat : Precedence → Nat
  | .None => 0
  | .Assignment => 1
  | .Or => 2
  | .And => 3
  | .Equality => 4
  | .Comparison => 5
  | .Term => 6
  | .Factor => 7
  | .Unary => 8
  | .Call => 9
  | .Primary => 10

/-- `<=` on precedences. -/
def Precedence.ble (a b : Precedence) : Bool := Nat.ble a.toNat b.toNat

/-- `Precedence::next`; panics above `Primary`. -/
def Precedence.next : Precedence → Except String Precedence
  | .None => .ok .Assignment
  | .Assignment => .ok .Or
  | .Or => .ok .And
  | .And => .ok .Equality
  | .Equality => .ok .Comparison
  | .Comparison => .ok .Term
  | .Term => .ok .Factor
  | .Factor => .ok .Unary
  | .Unary => .ok .Call
  | .Call => .ok .Primary
  | .Primary => .error "no precendence above primary!"

/-- `enum Prefix` of the rule table (field names shortened to `pfx`). -/
inductive PfxRule where
  | None | Variable | Grouping | Unary | Number | Literal | String

/-- `enum Infix` of the rule table. -/
inductive IfxRule where
  | None | Binary | Or | And

/-- `struct Rule { prefix, infix, precedence }`. -/
structure Rule where
  pfx : PfxRule
  ifx : IfxRule
  precedence : Precedence

/-- `get_rule`: the Pratt rule table of src/compiler.rs lines 108-151.
Note `Fun` has no prefix rule and `LeftParen` has no infix (call) rule. -/
def get_rule : TokenType → Rule
  | .LeftParen => ⟨.Grouping, .None, .None⟩
  | .RightParen => ⟨.None, .None, .None⟩
  | .LeftBrace => ⟨.None, .None, .None⟩
  | .RightBrace => ⟨.None, .None, .None⟩
  | .Comma => ⟨.None, .None, .None⟩
  | .Dot => ⟨.None, .None, .None⟩
  | .Minus => ⟨.Unary, .Binary, .Term⟩
  | .Plus => ⟨.None, .Binary, .Term⟩
  | .Semicolon => ⟨.None, .None, .None⟩
  | .Slash => ⟨.None, .Binary, .Factor⟩
  | .Star => ⟨.None, .Binary, .Factor⟩
  | .Bang => ⟨.Unary, .None, .None⟩
  | .BangEqual => ⟨.None, .Binary, .Equality⟩
  | .Equal => ⟨.None, .None, .None⟩
  | .EqualEqual => ⟨.None, .Binary, .Equality⟩
  | .Greater => ⟨.None, .Binary, .Comparison⟩
  | .GreaterEqual => ⟨.None, .Binary, .Comparison⟩
  | .Less => ⟨.None, .Binary, .Comparison⟩
  | .LessEqual => ⟨.None, .Binary, .Comparison⟩
  | .Identifier => ⟨.Variable, .None, .None⟩
  | .String => ⟨.String, .None, .None⟩
  | .Number => ⟨.Number, .None, .None⟩
  | .And => ⟨.None, .And, .And⟩
  | .Class => ⟨.None, .None, .None⟩
  | .Else => ⟨.None, .None, .None⟩
  | .False => ⟨.Literal, .None, .None⟩
  | .For => ⟨.None, .None, .None⟩
  | .Fun => ⟨.None, .None, .None⟩
  | .If => ⟨.None, .None, .None⟩
  | .Nil => ⟨.Literal, .None, .None⟩
  | .Or => ⟨.None, .Or, .Or⟩
  | .Print => ⟨.None, .None, .None⟩
  | .Return => ⟨.None, .None, .None⟩
  | .Super => ⟨.None, .None, .None⟩
  | .This => ⟨.None, .None, .None⟩
  | .True => ⟨.Literal, .None, .None⟩
  | .Var => ⟨.None, .None, .None⟩
  | .While => ⟨.None, .None, .None⟩
  | .Error => ⟨.None, .None, .None⟩
  | .Eof => ⟨.None, .None, .None⟩

/-- `struct Parser` (the `scanner`, `compiler`, token and error state). -/
structure ParserSt (F : Type) where
  scanner : Scanner
  compiler : Compiler
  previous : Token
  current : Token
  chunk : Option (Chunk F)
  had_error : Bool
  panic_mode : Bool

/-- The compiler's effect monad: parser state plus the panic paths of the
Rust code (`unwrap`s and explicit panics). -/
abbrev CompM (F : Type) (α : Type) := StateT (ParserSt F) (Except String) α

/-- Fuel that always suffices for one `scan_token` call (its loops each
consume at least one source character). -/
def scanFuel (s : Scanner) : Nat := s.source.length + 2

namespace Parser

variable {F : Type}

/-- `Parser::init` (the two placeholder tokens "before file"). -/
def initSt (source : String) : ParserSt F :=
  { scanner := Scanner.init source
    compiler := Compiler.new
    previous := ⟨.Error, "before file", 0⟩
    current := ⟨.Error, "before file", 0⟩
    chunk := none
    had_error := false
    panic_mode := false }

/-- `Parser::error_at`: suppressed in panic mode, otherwise sets
`panic_mode` and `had_error` (the diagnostic text goes to stderr and is
not part of the state). -/
def error_at (_at : Token) (_msg : String) : CompM F Unit := do
  let st ← get
  if st.panic_mode then pure ()
  else set { st with panic_mode := true, had_error := true }

/-- `Parser::error_at_current`. -/
def error_at_current (msg : String) : CompM F Unit := do
  let st ← get
  error_at st.current msg

/-- One iteration of the token-fetch loop inside `Parser::advance`: scan
until a non-error token, reporting each error token. -/
def advLoopStep (ih : CompM F Unit) : CompM F Unit := do
  let st ← get
  match Scanner.scan_token (scanFuel st.scanner) st.scanner with
  | .error m => throw m
  | .ok (tok, sc') => do
    set { st with scanner := sc', current := tok }
    if tok.kind ≠ TokenType.Error then pure ()
    else do
      error_at_current tok.lexeme
      ih

/-- The token-fetch loop (fuel-indexed). -/
def advLoop (fuel : Nat) : CompM F Unit :=
  @Nat.rec (fun _ => CompM F Unit)
    (throw "out of fuel")
    (fun _ ih => advLoopStep ih)
    fuel

/-- Unfolding equation for `advLoop`. -/
theorem advLoop_eq (fuel : Nat) :
    advLoop (F := F) fuel
      = if fuel = 0 then throw "out of fuel" else advLoopStep (advLoop (fuel - 1)) := by
  cases fuel
  · rfl
  · rfl

/-- `Parser::advance`. -/
def advance (fuel : Nat) : CompM F Unit := do
  modify fun st => { st with previous := st.current }
  advLoop fuel

/-- `Parser::matches`. -/
def matchTok (fuel : Nat) (kind : TokenType) : CompM F Bool := do
  let st ← get
  if st.current.kind = kind then do
    advance fuel
    pure true
  else pure false

/-- `Parser::consume`. -/
def consume (fuel : Nat) (kind : TokenType) (msg : String) : CompM F Unit := do
  let st ← get
  if st.current.kind = kind then advance fuel
  else error_at_current msg

/-- `Parser::current_chunk`: `self.chunk.as_mut().unwrap()`. -/
def current_chunk : CompM F (Chunk F) := do
  let st ← get
  match st.chunk with
  | some c => pure c
  | none => throw "called Option unwrap on a None value"

/-- Store the mutated chunk back. -/
def setChunk (c : Chunk F) : CompM F Unit :=
  modify fun st => { st with chunk := some c }

/-- `Parser::emit_byte` (line of the previous token). -/
def emit_byte (b : OpCode) : CompM F Unit := do
  let st ← get
  let c ← current_chunk
  match c.write_chunk b st.previous.line with
  | some c' => setChunk c'
  | none => throw "Source code too long!"

/-- `chunk.write_u32` through the parser (panic on overflow). -/
def write_u32M (v : Nat) (line : Nat) : CompM F Unit := do
  let c ← current_chunk
  match c.write_u32 v line with
  | some c' => setChunk c'
  | none => throw "Source code too long!"

/-- `Parser::emit_constant`: add the constant, emit `Constant` and the
index operand, all at the previous token's line. -/
def emit_constant (v : Value F) : CompM F Unit := do
  let st ← get
  let line := st.previous.line
  let c ← current_chunk
  match c.add_constant v with
  | none => throw "cannot have more constants"
  | some (c1, i) => do
    match c1.write_chunk .Constant line with
    | none => throw "Source code too long!"
    | some c2 => do
      setChunk c2
      write_u32M i line

/-- `Parser::emit_jump` (opcode at the previous line, placeholder at the
current line; returns the operand position). -/
def emit_jumpM (op : OpCode) : CompM F Nat := do
  let st ← get
  let c ← current_chunk
  match emitJump c op st.previous.line st.current.line with
  | none => throw "Source code too long!"
  | some (c', p) => do
    setChunk c'
    pure p

/-- `Parser::patch_jump`. -/
def patch_jumpM (offset : Nat) : CompM F Unit := do
  let c ← current_chunk
  setChunk (c.patch_jump offset)

/-- `Parser::emit_loop`: `Loop` opcode, then operand
`(size + 4) - offset` at the current line. -/
def emit_loopM (offset : Nat) : CompM F Unit := do
  emit_byte .Loop
  let st ← get
  let c ← current_chunk
  match c.write_u32 (c.size + 4 - offset) st.current.line with
  | some c' => setChunk c'
  | none => throw "Source code too long!"

/-- `Parser::begin_scope`. -/
def begin_scopeM : CompM F Unit :=
  modify fun st =>
    { st with compiler := { st.compiler with scope_depth := st.compiler.scope_depth + 1 } }

/-- Emit `n` `Pop` instructions (the loop in `Parser::end_scope`). -/
def emitPops (n : Nat) : CompM F Unit :=
  @Nat.rec (fun _ => CompM F Unit)
    (pure ())
    (fun _ ih => do
      emit_byte .Pop
      ih)
    n

/-- Unfolding equation for `emitPops`. -/
theorem emitPops_eq (n : Nat) :
    emitPops (F := F) n
      = if n = 0 then pure () else (do
          emit_byte .Pop
          emitPops (n - 1)) := by
  cases n
  · rfl
  · rfl

/-- `Parser::end_scope`: decrement depth, drop dead locals, emit a `Pop`
for each. -/
def end_scopeM : CompM F Unit := do
  modify fun st =>
    { st with compiler := { st.compiler with scope_depth := st.compiler.scope_depth - 1 } }
  let st ← get
  let (removed, comp') := st.compiler.locals_removed_from_stack
  set { st with compiler := comp' }
  emitPops removed

/-- Search the locals from the top of the declaration stack (highest
index first, as the reversed `enumerate` does). -/
def findLocalFrom : List Local → String → Nat → Option (Nat × Local)
  | [], _, _ => none
  | l :: ls, name, i =>
    match findLocalFrom ls name (i + 1) with
    | some r => some r
    | none => if l.token.lexeme == name then some (i, l) else none

/-- `Parser::resolve_local`: report "Can't read local variable in its own
initializer." when the found local has no depth yet, but still return its
index. -/
def resolve_local (name : String) : CompM F (Option Nat) := do
  let st ← get
  match findLocalFrom st.compiler.locals name 0 with
  | none => pure none
  | some (i, l) => do
    if l.depth.isNone then
      error_at_current "Can't read local variable in its own initializer."
    else pure ()
    pure (some i)

/-- `Parser::declare_variable`: duplicate check, then push the local. -/
def declare_variable : CompM F Unit := do
  let st ← get
  let t := st.previous
  if st.compiler.variable_already_declared t then
    error_at_current "Already a variable with this name in this scope."
  else pure ()
  modify fun st2 => { st2 with compiler := st2.compiler.add_local t }

/-- `Parser::parse_variable`. -/
def parse_variable (fuel : Nat) (msg : String) : CompM F Unit := do
  consume fuel .Identifier msg
  declare_variable

/-- Mark the newest local as initialized
(`locals.last_mut().unwrap().depth = Some(scope_depth)`). -/
def setLastLocalDepth : CompM F Unit := do
  let st ← get
  match st.compiler.locals.getLast? with
  | none => throw "called Option unwrap on a None value"
  | some l =>
    set { st with compiler := { st.compiler with
      locals := st.compiler.locals.dropLast ++ [{ l with depth := some st.compiler.scope_depth }] } }

/-- One iteration of the skip loop of `Parser::synchronize`. -/
def syncLoopStep (ih : CompM F Unit) (fuel : Nat) : CompM F Unit := do
  let st ← get
  if st.current.kind ≠ .Eof then
    if st.previous.kind = .Semicolon then pure ()
    else
      match st.current.kind with
      | .Class | .Fun | .For | .If | .While | .Var | .Print | .Return => pure ()
      | _ => do
        advance fuel
        ih
  else pure ()

/-- The skip loop of `Parser::synchronize` (fuel-indexed). -/
def syncLoop (fuel : Nat) : CompM F Unit :=
  @Nat.rec (fun _ => CompM F Unit)
    (throw "out of fuel")
    (fun f ih => syncLoopStep ih f)
    fuel

/-- Unfolding equation for `syncLoop`. -/
theorem syncLoop_eq (fuel : Nat) :
    syncLoop (F := F) fuel
      = if fuel = 0 then throw "out of fuel"
        else syncLoopStep (syncLoop (fuel - 1)) (fuel - 1) := by
  cases fuel
  · rfl
  · rfl

/-- `Parser::synchronize`. -/
def synchronize (fuel : Nat) : CompM F Unit := do
  modify fun st => { st with panic_mode := false }
  syncLoop fuel

/-- `Parser::literal`. -/
def literal : CompM F Unit := do
  let st ← get
  match st.previous.kind with
  | .Nil => emit_constant (.nil)
  | .False => emit_constant (.bool false)
  | .True => emit_constant (.bool true)
  | _ => throw "Unsupported literal."

/-- `Parser::number` (`f64::from_str(lexeme).unwrap()`). -/
def numberExpr (ops : FOps F) : CompM F Unit := do
  let st ← get
  match ops.ffromStr st.previous.lexeme with
  | none => throw "called Result unwrap on an Err value"
  | some v => emit_constant (.number v)

/-- `Parser::string`: the lexeme without its surrounding quotes. -/
def stringExpr : CompM F Unit := do
  let st ← get
  let s := st.previous.lexeme
  emit_constant (.obj (.str (String.mk ((s.toList.drop 1).take (s.length - 2)))))

/-- The mutually recursive parse functions of `Parser`
(`declaration` through `or`).  In the Rust source these are separate
mutually recursive methods; here they are the arms of one fuel-indexed
dispatcher (so that the recursion is structural on the fuel and the
definition computes); each arm's body is the corresponding method,
unchanged, and named wrappers are defined below. -/
inductive PTask where
  | declaration
  | var_declaration
  | statement
  | block
  | blockLoop
  | expression_statement
  | print_statement
  | if_statement
  | while_statement
  | for_statement
  | expression
  | parsePrec (prec : Precedence)
  | afterPfx (prec : Precedence) (can_assign : Bool)
  | infixLoop (prec : Precedence)
  | variableExpr (can_assign : Bool)
  | grouping
  | unary
  | binary
  | andExpr
  | orExpr

/-- One step of the dispatcher for the mutually recursive parse methods:
`ih` is the dispatcher at the next-smaller fuel; see `PTask`. -/
def pStep (ops : FOps F) (ih : PTask → CompM F Unit) (fuel : Nat) :
    PTask → CompM F Unit
  | t =>
    match t with
    | .declaration => do
      -- `Parser::declaration`
      let m ← matchTok fuel .Var
      if m then ih .var_declaration else ih .statement
      let st ← get
      if st.panic_mode then synchronize fuel else pure ()
    | .var_declaration => do
      -- `Parser::var_declaration`
      parse_variable fuel "Expect variable name."
      let m ← matchTok fuel .Equal
      if m then ih .expression else emit_byte .Nil
      setLastLocalDepth
      consume fuel .Semicolon "Expect ';' after variable declaration."
    | .statement => do
      -- `Parser::statement`
      let m1 ← matchTok fuel .Print
      if m1 then ih .print_statement
      else do
        let m2 ← matchTok fuel .LeftBrace
        if m2 then ih .block
        else do
          let m3 ← matchTok fuel .If
          if m3 then ih .if_statement
          else do
            let m4 ← matchTok fuel .While
            if m4 then ih .while_statement
            else do
              let m5 ← matchTok fuel .For
              if m5 then ih .for_statement
              else ih .expression_statement
    | .block => do
      -- `Parser::block`
      begin_scopeM
      ih .blockLoop
      consume fuel .RightBrace "Expect '\x7d' after block."
      end_scopeM
    | .blockLoop => do
      -- the declaration loop inside `Parser::block`
      let st ← get
      if st.current.kind ≠ .RightBrace && st.current.kind ≠ .Eof then do
        ih .declaration
        ih .blockLoop
      else pure ()
    | .expression_statement => do
      -- `Parser::expression_statement`
      ih .expression
      consume fuel .Semicolon "Expect ';' after expression."
    | .print_statement => do
      -- `Parser::print_statement`
      ih .expression
      consume fuel .Semicolon "Expect ';' after value."
      emit_byte .Print
    | .if_statement => do
      -- `Parser::if_statement`
      consume fuel .LeftParen "Expect '(' after 'if'."
      ih .expression
      consume fuel .RightParen "Expect ')' after condition."
      let then_jump ← emit_jumpM .JumpIfFalse
      emit_byte .Pop
      ih .statement
      let else_jump ← emit_jumpM .Jump
      patch_jumpM then_jump
      emit_byte .Pop
      let m ← matchTok fuel .Else
      if m then ih .statement else pure ()
      patch_jumpM else_jump
    | .while_statement => do
      -- `Parser::while_statement`
      let c ← current_chunk
      let loop_start := c.size
      consume fuel .LeftParen "Expect '(' after 'while'."
      ih .expression
      consume fuel .RightParen "Expect ')' after condition."
      let end_jump ← emit_jumpM .JumpIfFalse
      emit_byte .Pop
      ih .statement
      emit_loopM loop_start
      patch_jumpM end_jump
      emit_byte .Pop
    | .for_statement => do
      -- `Parser::for_statement`
      begin_scopeM
      consume fuel .LeftParen "Expect '(' after 'for'."
      let m1 ← matchTok fuel .Semicolon
      if m1 then pure ()
      else do
        let m2 ← matchTok fuel .Var
        if m2 then ih .var_declaration else ih .expression_statement
      let c ← current_chunk
      let loop_start0 := c.size
      let m3 ← matchTok fuel .Semicolon
      let exit_jump ←
        if m3 then pure (none : Option Nat)
        else do
          ih .expression
          consume fuel .Semicolon "Expect ';' after loop condition."
          let j ← emit_jumpM .JumpIfFalse
          emit_byte .Pop
          pure (some j)
      let m4 ← matchTok fuel .RightParen
      let loop_start ←
        if m4 then pure loop_start0
        else do
          let body_jump ← emit_jumpM .Jump
          let c2 ← current_chunk
          let increment_start := c2.size
          ih .expression
          emit_byte .Pop
          consume fuel .RightParen "Expect ')' after for clauses."
          emit_loopM loop_start0
          patch_jumpM body_jump
          pure increment_start
      ih .statement
      emit_loopM loop_start
      match exit_jump with
      | some j => do
        patch_jumpM j
        emit_byte .Pop
      | none => pure ()
      end_scopeM
    | .expression =>
      -- `Parser::expression`
      ih (.parsePrec .Assignment)
    | .parsePrec prec => do
      -- `Parser::parse_precedence`: prefix dispatch (an absent prefix
      -- rule reports "Expect expression." and returns early), then the
      -- infix loop and the invalid-assignment check
      advance fuel
      let can_assign := prec.ble .Assignment
      let st ← get
      match (get_rule st.previous.kind).pfx with
      | .None => error_at_current "Expect expression."
      | .Variable => do
        ih (.variableExpr can_assign)
        ih (.afterPfx prec can_assign)
      | .Literal => do
        literal
        ih (.afterPfx prec can_assign)
      | .Grouping => do
        ih .grouping
        ih (.afterPfx prec can_assign)
      | .Unary => do
        ih .unary
        ih (.afterPfx prec can_assign)
      | .Number => do
        numberExpr ops
        ih (.afterPfx prec can_assign)
      | .String => do
        stringExpr
        ih (.afterPfx prec can_assign)
    | .afterPfx prec can_assign => do
      -- infix loop and trailing `=` check of `parse_precedence`
      -- (`matches` only runs when `can_assign`)
      ih (.infixLoop prec)
      if can_assign then do
        let m ← matchTok fuel .Equal
        if m then error_at_current "Invalid assigment target." else pure ()
      else pure ()
    | .infixLoop prec => do
      -- `while prec <= get_rule(current).precedence { advance; infix }`
      let st ← get
      if prec.ble (get_rule st.current.kind).precedence then do
        advance fuel
        let st2 ← get
        match (get_rule st2.previous.kind).ifx with
        | .None => pure ()
        | .Binary => ih .binary
        | .And => ih .andExpr
        | .Or => ih .orExpr
        ih (.infixLoop prec)
      else pure ()
    | .variableExpr can_assign => do
      -- `Parser::variable` (static resolution against the locals table
      -- only; no globals)
      let st ← get
      let name := st.previous.lexeme
      let line := st.previous.line
      let r ← resolve_local name
      match r with
      | some i => do
        let assigned ← if can_assign then matchTok fuel .Equal else pure false
        if assigned then do
          ih .expression
          emit_byte .SetLocal
          setLastLocalDepth
        else emit_byte .GetLocal
        write_u32M i line
      | none => error_at_current ("Unknown variable '" ++ name ++ "'.")
    | .grouping => do
      -- `Parser::grouping`
      ih .expression
      consume fuel .RightParen "Expect ')' after expression."
    | .unary => do
      -- `Parser::unary`
      let st ← get
      let op := st.previous.kind
      ih (.parsePrec .Unary)
      match op with
      | .Minus => emit_byte .Negate
      | .Bang => emit_byte .Not
      | _ => throw "unknown unary operator"
    | .binary => do
      -- `Parser::binary`
      let st ← get
      let op := st.previous.kind
      match (get_rule op).precedence.next with
      | .error m => throw m
      | .ok p => ih (.parsePrec p)
      match op with
      | .Plus => emit_byte .Add
      | .Minus => emit_byte .Substract
      | .Star => emit_byte .Multiply
      | .Slash => emit_byte .Divide
      | .BangEqual => do
        emit_byte .Equal
        emit_byte .Not
      | .EqualEqual => emit_byte .Equal
      | .Less => emit_byte .Less
      | .LessEqual => do
        emit_byte .Greater
        emit_byte .Not
      | .Greater => emit_byte .Greater
      | .GreaterEqual => do
        emit_byte .Less
        emit_byte .Not
      | _ => throw "unknown binary operator"
    | .andExpr => do
      -- `Parser::and` (short-circuit via `JumpIfFalse`)
      let end_jump ← emit_jumpM .JumpIfFalse
      emit_byte .Pop
      ih (.parsePrec .And)
      patch_jumpM end_jump
    | .orExpr => do
      -- `Parser::or`
      let else_jump ← emit_jumpM .JumpIfFalse
      let end_jump ← emit_jumpM .Jump
      patch_jumpM else_jump
      emit_byte .Pop
      ih (.parsePrec .Or)
      patch_jumpM end_jump

/-- The dispatcher itself: structural recursion on the fuel, written with
a bare `Nat.rec` so that evaluation stays linear in the fuel. -/
def pRun (ops : FOps F) (fuel : Nat) : PTask → CompM F Unit :=
  @Nat.rec (fun _ => PTask → CompM F Unit)
    (fun _ => throw "out of fuel")
    (fun f ih => pStep ops ih f)
    fuel

/-- Unfolding equation for `pRun`. -/
theorem pRun_eq (ops : FOps F) (fuel : Nat) (t : PTask) :
    pRun ops fuel t
      = if fuel = 0 then throw "out of fuel"
        else pStep ops (pRun ops (fuel - 1)) (fuel - 1) t := by
  cases fuel
  · rfl
  · rfl

/-- `Parser::declaration`. -/
def declaration (ops : FOps F) (fuel : Nat) : CompM F Unit :=
  pRun ops fuel .declaration

/-- `Parser::statement`. -/
def statement (ops : FOps F) (fuel : Nat) : CompM F Unit :=
  pRun ops fuel .statement

/-- `Parser::expression`. -/
def expression (ops : FOps F) (fuel : Nat) : CompM F Unit :=
  pRun ops fuel .expression

/-- `Parser::parse_precedence`. -/
def parse_precedence (ops : FOps F) (fuel : Nat) (prec : Precedence) : CompM F Unit :=
  pRun ops fuel (.parsePrec prec)

/-- One iteration of the `while !self.matches(Eof)` loop of
`Parser::compile`. -/
def compileLoopStep (ops : FOps F) (ih : CompM F Unit) (fuel : Nat) : CompM F Unit := do
  let m ← matchTok fuel .Eof
  if m then pure ()
  else do
    declaration ops fuel
    ih

/-- The declaration loop of `Parser::compile` (fuel-indexed). -/
def compileLoop (ops : FOps F) (fuel : Nat) : CompM F Unit :=
  @Nat.rec (fun _ => CompM F Unit)
    (throw "out of fuel")
    (fun f ih => compileLoopStep ops ih f)
    fuel

/-- Unfolding equation for `compileLoop`. -/
theorem compileLoop_eq (ops : FOps F) (fuel : Nat) :
    compileLoop ops fuel
      = if fuel = 0 then throw "out of fuel"
        else compileLoopStep ops (compileLoop ops (fuel - 1)) (fuel - 1) := by
  cases fuel
  · rfl
  · rfl

/-- `Parser::compile`: fresh chunk, parse all declarations, force `Eof`,
emit the trailing `Return` (`end_compiler`; the disassembly print has no
state effect), and return the chunk only when no error was recorded. -/
def compile (ops : FOps F) (fuel : Nat) : CompM F (Option (Chunk F)) := do
  modify fun st => { st with chunk := some Chunk.new }
  advance fuel
  compileLoop ops fuel
  consume fuel .Eof "Expect end of expression."
  emit_byte .Return
  let st ← get
  if st.had_error then pure none else pure st.chunk

end Parser

/-! ## Claim C1 — the counter-closure program does not compile -/

/-- The counter-closure program of the specification's scenario 4. -/
def counterSource : String :=
  "fun mk() \x7b var n = 0; fun inc() \x7b n = n + 1; return n; \x7d return inc; \x7d var c = mk(); print c(); print c(); print c();"

set_option maxRecDepth 1000000 in
/-- Claim C1: compiling the counter-closure program FAILS — `fun` has no
prefix rule in `get_rule` and `declaration` only handles `var`, so the
parser records "Expect expression." at the first `fun` token, `had_error`
stays set, and `compile()` returns `None`; nothing is executed and nothing
is printed (the closure-capable VM of src/main.rs never runs). -/
theorem counter_program_fails_to_compile :
    ((Parser.compile (F := Int) intOps 300).run (Parser.initSt counterSource)).map Prod.fst
      = Except.ok none := rfl

end RLox
